import Mathlib

/-!
Shallow embedding of the repository source file centurylinkchallenge.go.

Modelling conventions:
  * float64 values (cpu and mem loads, sums, averages) are modelled as exact
    rationals; the claims only involve arithmetic that is exact in float64.
  * time.Time instants and time.Duration values are modelled as rationals
    measured in minutes. This is faithful because every duration computation
    in the source goes through rate.Minutes() (the minute count as a float)
    and the expression time.Duration(f) * time.Minute, which truncates the
    minute count f toward zero and scales back to a whole number of minutes;
    in minute units that is exactly truncQ f. The call time.Now() becomes the
    explicit parameter start.
  * the Go map of servers becomes a function from names to optional servers;
    the (int, error) return pairs become a status number plus an error flag,
    and the body written by the get handler becomes the GetOutcome inductive.
  * the unbounded inner for loop of the source (lines 165-168) is modelled
    with explicit fuel; the fuel supplied by average is provably sufficient
    whenever the rate is positive (the only regime any claim mentions; for a
    rate that is zero or negative the Go loop does not terminate at all).
-/

namespace CLC

/-- One reported observation, Go struct pulse. -/
structure pulse where
  Name : String
  Cpu : ℚ
  Mem : ℚ
  Time : ℚ
deriving DecidableEq

/-- Go struct server: a name and an append-only list of pulses. -/
structure server where
  Name : String
  Statistics : List pulse
deriving DecidableEq

/-- Go struct average: the running accumulator used while bucketing. -/
structure averageAcc where
  count : ℕ
  memsum : ℚ
  cpusum : ℚ
deriving DecidableEq

/-- The servers map of the Go Context struct. -/
def Context := String → Option server

/-- Truncation toward zero, the semantics of the Go conversion from float64
to an integer type. -/
def truncQ (x : ℚ) : ℤ :=
  if 0 ≤ x then Int.floor x else - Int.floor (-x)

/-- The bucket boundary computed twice inside the Go average method:
start.Add(time.Duration(float64(-1 * durations) * rate.Minutes()) * time.Minute).
In minute units rate.Minutes() is rate itself and multiplying the truncated
count by time.Minute is multiplication by one. -/
def bucketBoundary (start rate : ℚ) (durations : ℕ) : ℚ :=
  start + (truncQ (-(durations : ℚ) * rate) : ℚ) * 1

/-- Go function appendAndReset (lines 178-189): flush the accumulator into
both output slices when its cpu sum is positive, and reset it. -/
def appendAndReset (cpuaverages memaverages : List ℚ) (a : averageAcc) :
    List ℚ × List ℚ × averageAcc :=
  if 0 < a.cpusum then
    (cpuaverages ++ [a.cpusum / (a.count : ℚ)],
     memaverages ++ [a.memsum / (a.count : ℚ)],
     { count := 0, memsum := 0, cpusum := 0 })
  else (cpuaverages, memaverages, a)

/-- The inner for loop of average (lines 165-168): advance durations, calling
appendAndReset each iteration, while the sample time is before the current
bucket boundary. Fuel bounds the iteration count; average passes enough. -/
def advanceBuckets (start rate t : ℚ) :
    ℕ → ℕ → averageAcc → List ℚ → List ℚ → ℕ × averageAcc × List ℚ × List ℚ
  | 0, durations, a, cpuav, memav => (durations, a, cpuav, memav)
  | fuel + 1, durations, a, cpuav, memav =>
    if t < bucketBoundary start rate durations then
      let r := appendAndReset cpuav memav a
      advanceBuckets start rate t fuel (durations + 1) r.2.2 r.1 r.2.1
    else (durations, a, cpuav, memav)

/-- The outer loop of the Go average method (lines 147-173), walking the
statistics slice from its last index downward; the list argument here is the
reversed statistics list. The branches, in source order: stop and flush when
the index is exhausted or the sample is before the window start; accumulate
when the sample is strictly after the current bucket boundary; otherwise run
the inner advancing loop. The sample that triggered the advance is not
accumulated (the source has no further statement before the index moves on),
and the discarded appendAndReset call guarded by i == 0 at lines 170-172 has
no observable effect, so it is not modelled. -/
def averageLoop (start length rate : ℚ) (fuel : ℕ) :
    List pulse → ℕ → averageAcc → List ℚ → List ℚ → List ℚ × List ℚ
  | [], _, a, cpuav, memav =>
    if 0 < a.cpusum then
      (memav ++ [a.memsum / (a.count : ℚ)], cpuav ++ [a.cpusum / (a.count : ℚ)])
    else (memav, cpuav)
  | p :: rest, durations, a, cpuav, memav =>
    if p.Time < start - length then
      (if 0 < a.cpusum then
        (memav ++ [a.memsum / (a.count : ℚ)], cpuav ++ [a.cpusum / (a.count : ℚ)])
      else (memav, cpuav))
    else if bucketBoundary start rate durations < p.Time then
      averageLoop start length rate fuel rest durations
        { count := a.count + 1, memsum := a.memsum + p.Mem, cpusum := a.cpusum + p.Cpu }
        cpuav memav
    else
      let r := advanceBuckets start rate p.Time fuel durations a cpuav memav
      averageLoop start length rate fuel rest r.1 r.2.1 r.2.2.1 r.2.2.2

/-- Fuel that provably suffices for the inner loop whenever the rate is
positive: the loop stops once the truncated minute count reaches the window
length, which takes at most about length divided by rate iterations. -/
def averageFuel (length rate : ℚ) : ℕ :=
  (length.num.natAbs + 2) * rate.den

/-- The Go average method (lines 135-175) on a statistics list; returns the
pair (memaverages, cpuaverages) in the order of the Go return statement. -/
def average (start length rate : ℚ) (Statistics : List pulse) : List ℚ × List ℚ :=
  averageLoop start length rate (averageFuel length rate) Statistics.reverse 1
    { count := 0, memsum := 0, cpusum := 0 } [] []

/-- Go method upsert (lines 123-132): create the server entry when missing,
append the pulse, and return status 200 with no error. -/
def upsert (c : Context) (s : pulse) : Context × ℕ :=
  (fun n =>
    if n = s.Name then
      some { Name := s.Name,
             Statistics := ((c s.Name).elim ([] : List pulse) server.Statistics) ++ [s] }
    else c n,
   200)

/-- Outcome of the Go get handler (lines 103-120): an error status, the
message for a server without statistics, or the four average lists. -/
inductive GetOutcome where
  | err (status : ℕ) : GetOutcome
  | okEmptyMsg : GetOutcome
  | okAverages (mem60 cpu60 mem24 cpu24 : List ℚ) : GetOutcome
deriving DecidableEq

/-- Go handler get (lines 103-120): unknown server yields status 500 with an
error (never the 404 handled by the surrounding Handler switch); a server
with no statistics yields a plain message with status 200; otherwise the two
fixed average calls, sixty one-minute buckets and twenty-four sixty-minute
buckets, in minute units. -/
def get (c : Context) (name : String) (start : ℚ) : GetOutcome :=
  match c name with
  | none => GetOutcome.err 500
  | some sv =>
    if sv.Statistics.length = 0 then GetOutcome.okEmptyMsg
    else
      GetOutcome.okAverages
        (average start 60 1 sv.Statistics).1 (average start 60 1 sv.Statistics).2
        (average start 1440 60 sv.Statistics).1 (average start 1440 60 sv.Statistics).2

/-- A store holding exactly one known server whose history is empty. -/
def knownOnlyStore : Context :=
  fun n => if n = "known" then some { Name := "known", Statistics := [] } else none

/-- Chronological history with one sample in each of n consecutive minutes,
ending at time zero: sample j carries cpu j + 1 and mem 100 + j and was taken
j - 69 minutes after the reference instant (so mkSamples 70 ends at zero). -/
def mkSamples : ℕ → List pulse
  | 0 => []
  | j + 1 => mkSamples j ++ [⟨"web-01", (j : ℚ) + 1, 100 + (j : ℚ), (j : ℚ) - 69⟩]

/-- The reversal of mkSamples, newest sample first. -/
def revSamples : ℕ → List pulse
  | 0 => []
  | j + 1 => ⟨"web-01", (j : ℚ) + 1, 100 + (j : ℚ), (j : ℚ) - 69⟩ :: revSamples j

/-- Sum of the cpu values of a group of pulses. -/
def sumCpu (g : List pulse) : ℚ := (g.map pulse.Cpu).sum

/-- Sum of the mem values of a group of pulses. -/
def sumMem (g : List pulse) : ℚ := (g.map pulse.Mem).sum

/-- The cpu average the flush computes from the group it accumulated. -/
def cpuAvgOf (g : List pulse) : ℚ := sumCpu g / (g.length : ℚ)

/-- The mem average the flush computes from the group it accumulated. -/
def memAvgOf (g : List pulse) : ℚ := sumMem g / (g.length : ℚ)

/-- The accumulator state that corresponds to a group of accumulated pulses. -/
def accOf (g : List pulse) : averageAcc :=
  { count := g.length, memsum := sumMem g, cpusum := sumCpu g }

/-- Instrumented twin of advanceBuckets that records which pulses each flushed
bucket had accumulated instead of only their sums; same control flow. -/
def advanceGroups (start rate t : ℚ) :
    ℕ → ℕ → List pulse → List (List pulse) → ℕ × List pulse × List (List pulse)
  | 0, durations, g, gs => (durations, g, gs)
  | fuel + 1, durations, g, gs =>
    if t < bucketBoundary start rate durations then
      if 0 < sumCpu g then advanceGroups start rate t fuel (durations + 1) [] (gs ++ [g])
      else advanceGroups start rate t fuel (durations + 1) g gs
    else (durations, g, gs)

/-- Instrumented twin of averageLoop over groups of pulses; same control flow
and the same flush guard, expressed through the accumulated group. -/
def groupsLoop (start length rate : ℚ) (fuel : ℕ) :
    List pulse → ℕ → List pulse → List (List pulse) → List (List pulse)
  | [], _, g, gs => if 0 < sumCpu g then gs ++ [g] else gs
  | p :: rest, durations, g, gs =>
    if p.Time < start - length then (if 0 < sumCpu g then gs ++ [g] else gs)
    else if bucketBoundary start rate durations < p.Time then
      groupsLoop start length rate fuel rest durations (g ++ [p]) gs
    else
      let r := advanceGroups start rate p.Time fuel durations g gs
      groupsLoop start length rate fuel rest r.1 r.2.1 r.2.2

/-- The groups of pulses that average flushes, in flush order: bucketGroups
observes the aggregation without changing it (see average_eq_bucketGroups). -/
def bucketGroups (start length rate : ℚ) (Statistics : List pulse) : List (List pulse) :=
  groupsLoop start length rate (averageFuel length rate) Statistics.reverse 1 [] []

/-- Truncation toward zero is the identity on integral rationals. -/
lemma truncQ_intCast (n : ℤ) : truncQ (n : ℚ) = n := by
  unfold truncQ
  rcases le_or_lt 0 ((n : ℚ)) with h | h
  · rw [if_pos h, Int.floor_intCast]
  · rw [if_neg (not_le.mpr h), ← Int.cast_neg, Int.floor_intCast, neg_neg]

/-- With a one-minute rate the bucket boundary is start minus durations minutes. -/
lemma bucketBoundary_one (start : ℚ) (d : ℕ) : bucketBoundary start 1 d = start - d := by
  unfold bucketBoundary
  rw [show (-(d : ℚ) * 1) = ((-(d : ℤ) : ℤ) : ℚ) by push_cast; ring, truncQ_intCast]
  push_cast
  ring

/-- Flushing an empty accumulator appends nothing. -/
lemma appendAndReset_zero (c m : List ℚ) :
    appendAndReset c m { count := 0, memsum := 0, cpusum := 0 }
      = (c, m, { count := 0, memsum := 0, cpusum := 0 }) := by
  simp [appendAndReset]

/-- The inner loop does nothing when the sample is not before the boundary. -/
lemma advanceBuckets_stop (start rate t : ℚ) (d : ℕ)
    (h : ¬ t < bucketBoundary start rate d) (fuel : ℕ) (a : averageAcc) (c m : List ℚ) :
    advanceBuckets start rate t fuel d a c m = (d, a, c, m) := by
  cases fuel <;> simp [advanceBuckets, h]

/-- One iteration of the inner loop when the sample is before the boundary. -/
lemma advanceBuckets_go (start rate t : ℚ) (d : ℕ)
    (h : t < bucketBoundary start rate d) (fuel : ℕ) (a : averageAcc) (c m : List ℚ) :
    advanceBuckets start rate t (fuel + 1) d a c m
      = advanceBuckets start rate t fuel (d + 1)
          (appendAndReset c m a).2.2 (appendAndReset c m a).1 (appendAndReset c m a).2.1 := by
  simp [advanceBuckets, h]

/-- The walk never looks past a sample that lies strictly before the window
start: the stop branch fires there, with the same final flush that the
exhausted-list case performs. -/
lemma averageLoop_cut (start length rate : ℚ) (fuel : ℕ) (s : pulse) (ys : List pulse)
    (hs : s.Time < start - length) :
    ∀ (xs : List pulse) (d : ℕ) (a : averageAcc) (cpuav memav : List ℚ),
      averageLoop start length rate fuel (xs ++ s :: ys) d a cpuav memav
        = averageLoop start length rate fuel xs d a cpuav memav := by
  intro xs
  induction xs with
  | nil =>
    intro d a cpuav memav
    simp only [List.nil_append]
    rw [averageLoop, averageLoop, if_pos hs]
  | cons x xs ih =>
    intro d a cpuav memav
    simp only [List.cons_append]
    rw [averageLoop, averageLoop]
    by_cases h1 : x.Time < start - length
    · rw [if_pos h1, if_pos h1]
    · rw [if_neg h1, if_neg h1]
      by_cases h2 : bucketBoundary start rate d < x.Time
      · rw [if_pos h2, if_pos h2]
        exact ih _ _ _ _
      · rw [if_neg h2, if_neg h2]
        dsimp only
        exact ih _ _ _ _

/-- A sample strictly older than the whole window contributes to no bucket:
the aggregation of any history that contains it equals the aggregation of
just the samples appended after it. -/
lemma average_cut (start length rate : ℚ) (s : pulse) (pre suf : List pulse)
    (hs : s.Time < start - length) :
    average start length rate (pre ++ s :: suf) = average start length rate suf := by
  unfold average
  rw [show (pre ++ s :: suf).reverse = suf.reverse ++ s :: pre.reverse by
        simp [List.reverse_append]]
  exact averageLoop_cut start length rate _ s pre.reverse hs suf.reverse 1 _ [] []

lemma accOf_cpusum (g : List pulse) : (accOf g).cpusum = sumCpu g := rfl

lemma accOf_memsum (g : List pulse) : (accOf g).memsum = sumMem g := rfl

lemma accOf_count (g : List pulse) : (accOf g).count = g.length := rfl

lemma sumCpu_append (g : List pulse) (p : pulse) : sumCpu (g ++ [p]) = sumCpu g + p.Cpu := by
  simp [sumCpu]

lemma sumMem_append (g : List pulse) (p : pulse) : sumMem (g ++ [p]) = sumMem g + p.Mem := by
  simp [sumMem]

lemma accOf_nil : accOf [] = { count := 0, memsum := 0, cpusum := 0 } := by
  simp [accOf, sumCpu, sumMem]

/-- The inner loop and its instrumented twin advance in lockstep: starting
from the accumulator and output lists determined by a group and a list of
flushed groups, the result is determined the same way by the twin run. -/
lemma advanceBuckets_eq_groups (start rate t : ℚ) :
    ∀ (fuel durations : ℕ) (g : List pulse) (gs : List (List pulse)),
      advanceBuckets start rate t fuel durations (accOf g)
          (gs.map cpuAvgOf) (gs.map memAvgOf)
        = ((advanceGroups start rate t fuel durations g gs).1,
           accOf (advanceGroups start rate t fuel durations g gs).2.1,
           ((advanceGroups start rate t fuel durations g gs).2.2).map cpuAvgOf,
           ((advanceGroups start rate t fuel durations g gs).2.2).map memAvgOf) := by
  intro fuel
  induction fuel with
  | zero => intro d g gs; rfl
  | succ fuel ih =>
    intro d g gs
    rw [advanceBuckets, advanceGroups]
    by_cases hb : t < bucketBoundary start rate d
    · rw [if_pos hb, if_pos hb]
      dsimp only
      by_cases hc : 0 < sumCpu g
      · rw [if_pos hc]
        rw [show appendAndReset (gs.map cpuAvgOf) (gs.map memAvgOf) (accOf g)
              = ((gs ++ [g]).map cpuAvgOf, (gs ++ [g]).map memAvgOf, accOf []) from by
            simp [appendAndReset, accOf_cpusum, hc, accOf_nil, cpuAvgOf, memAvgOf,
              accOf_memsum, accOf_count]]
        exact ih (d + 1) [] (gs ++ [g])
      · rw [if_neg hc]
        rw [show appendAndReset (gs.map cpuAvgOf) (gs.map memAvgOf) (accOf g)
              = (gs.map cpuAvgOf, gs.map memAvgOf, accOf g) from by
            simp [appendAndReset, accOf_cpusum, hc]]
        exact ih (d + 1) g gs
    · rw [if_neg hb, if_neg hb]

/-- The outer loop and its instrumented twin agree: the aggregation output is
exactly the per-group mem and cpu averages of the flushed groups. -/
lemma averageLoop_eq_groups (start length rate : ℚ) (fuel : ℕ) :
    ∀ (l : List pulse) (durations : ℕ) (g : List pulse) (gs : List (List pulse)),
      averageLoop start length rate fuel l durations (accOf g)
          (gs.map cpuAvgOf) (gs.map memAvgOf)
        = ((groupsLoop start length rate fuel l durations g gs).map memAvgOf,
           (groupsLoop start length rate fuel l durations g gs).map cpuAvgOf) := by
  intro l
  induction l with
  | nil =>
    intro d g gs
    rw [averageLoop, groupsLoop, accOf_cpusum]
    by_cases hc : 0 < sumCpu g
    · rw [if_pos hc, if_pos hc]
      simp [List.map_append, memAvgOf, cpuAvgOf, accOf_memsum, accOf_count]
    · rw [if_neg hc, if_neg hc]
  | cons p rest ih =>
    intro d g gs
    rw [averageLoop, groupsLoop]
    by_cases h1 : p.Time < start - length
    · rw [if_pos h1, if_pos h1, accOf_cpusum]
      by_cases hc : 0 < sumCpu g
      · rw [if_pos hc, if_pos hc]
        simp [List.map_append, memAvgOf, cpuAvgOf, accOf_memsum, accOf_count]
      · rw [if_neg hc, if_neg hc]
    · rw [if_neg h1, if_neg h1]
      by_cases h2 : bucketBoundary start rate d < p.Time
      · rw [if_pos h2, if_pos h2]
        rw [show ({ count := (accOf g).count + 1, memsum := (accOf g).memsum + p.Mem,
                    cpusum := (accOf g).cpusum + p.Cpu } : averageAcc) = accOf (g ++ [p]) from by
          simp [accOf, sumCpu_append, sumMem_append, sumCpu, sumMem]]
        exact ih d (g ++ [p]) gs
      · rw [if_neg h2, if_neg h2]
        dsimp only
        rw [advanceBuckets_eq_groups]
        exact ih _ _ _

/-- average observes exactly the per-group averages of bucketGroups: the
mem sequence and the cpu sequence are the two projections of one and the
same list of flushed sample groups. -/
lemma average_eq_bucketGroups (start length rate : ℚ) (st : List pulse) :
    average start length rate st
      = ((bucketGroups start length rate st).map memAvgOf,
         (bucketGroups start length rate st).map cpuAvgOf) := by
  unfold average bucketGroups
  have h := averageLoop_eq_groups start length rate (averageFuel length rate) st.reverse 1 [] []
  rw [accOf_nil] at h
  simpa using h

/-- The instrumented inner loop only ever flushes nonempty groups. -/
lemma advanceGroups_ne_nil (start rate t : ℚ) :
    ∀ (fuel durations : ℕ) (g : List pulse) (gs : List (List pulse)),
      (∀ x ∈ gs, x ≠ []) →
      ∀ x ∈ (advanceGroups start rate t fuel durations g gs).2.2, x ≠ [] := by
  intro fuel
  induction fuel with
  | zero => intro d g gs h; exact h
  | succ fuel ih =>
    intro d g gs h
    rw [advanceGroups]
    by_cases hb : t < bucketBoundary start rate d
    · rw [if_pos hb]
      by_cases hc : 0 < sumCpu g
      · rw [if_pos hc]
        refine ih (d + 1) [] (gs ++ [g]) ?_
        intro x hx
        rcases List.mem_append.mp hx with hx1 | hx1
        · exact h x hx1
        · rw [List.mem_singleton.mp hx1]
          rintro rfl
          simp [sumCpu] at hc
      · rw [if_neg hc]
        exact ih (d + 1) g gs h
    · rw [if_neg hb]
      exact h

/-- The instrumented outer loop only ever flushes nonempty groups. -/
lemma groupsLoop_ne_nil (start length rate : ℚ) (fuel : ℕ) :
    ∀ (l : List pulse) (durations : ℕ) (g : List pulse) (gs : List (List pulse)),
      (∀ x ∈ gs, x ≠ []) →
      ∀ x ∈ groupsLoop start length rate fuel l durations g gs, x ≠ [] := by
  have flushed : ∀ (g : List pulse) (gs : List (List pulse)),
      (∀ x ∈ gs, x ≠ []) →
      ∀ x ∈ (if 0 < sumCpu g then gs ++ [g] else gs), x ≠ [] := by
    intro g gs h x hx
    by_cases hc : 0 < sumCpu g
    · rw [if_pos hc] at hx
      rcases List.mem_append.mp hx with hx1 | hx1
      · exact h x hx1
      · rw [List.mem_singleton.mp hx1]
        rintro rfl
        simp [sumCpu] at hc
    · rw [if_neg hc] at hx
      exact h x hx
  intro l
  induction l with
  | nil => intro d g gs h; rw [groupsLoop]; exact flushed g gs h
  | cons p rest ih =>
    intro d g gs h
    rw [groupsLoop]
    by_cases h1 : p.Time < start - length
    · rw [if_pos h1]
      exact flushed g gs h
    · rw [if_neg h1]
      by_cases h2 : bucketBoundary start rate d < p.Time
      · rw [if_pos h2]
        exact ih d (g ++ [p]) gs h
      · rw [if_neg h2]
        dsimp only
        exact ih _ _ _ (advanceGroups_ne_nil start rate p.Time fuel d g gs h)

/-- Every group average flushes was accumulated from at least one sample. -/
lemma bucketGroups_ne_nil (start length rate : ℚ) (st : List pulse) :
    ∀ g ∈ bucketGroups start length rate st, g ≠ [] := by
  unfold bucketGroups
  exact groupsLoop_ne_nil start length rate _ st.reverse 1 [] [] (by simp)

lemma mkSamples_reverse : ∀ n : ℕ, (mkSamples n).reverse = revSamples n := by
  intro n
  induction n with
  | zero => rfl
  | succ j ih => simp [mkSamples, revSamples, ih]

/-- In the one-sample-per-minute history, every sample after the newest
bucket is dropped: each one fails to be strictly after the current bucket
boundary, triggers at most one empty advance, and is never accumulated, so
the walk ends with the output lists unchanged. This covers samples 66 down
to 9, and sample 8 (61 minutes old) stops the walk. -/
lemma dropWalk : ∀ n : ℕ, 8 ≤ n → n ≤ 66 → ∀ (cpuav memav : List ℚ),
    averageLoop 0 60 1 62 (revSamples (n + 1)) (68 - n)
      { count := 0, memsum := 0, cpusum := 0 } cpuav memav = (memav, cpuav) := by
  intro n hn
  induction n, hn using Nat.le_induction with
  | base =>
    intro _ cpuav memav
    rw [revSamples, averageLoop]
    dsimp only
    rw [if_pos (show ((8 : ℕ) : ℚ) - 69 < 0 - 60 by norm_num)]
    norm_num
  | succ n hn ih =>
    intro h66 cpuav memav
    have hc68 : n + 1 ≤ 68 := by omega
    have hcast : ((68 - (n + 1) : ℕ) : ℚ) = 68 - ((n : ℚ) + 1) := by
      rw [show 68 - (n + 1) = 67 - n from by omega, Nat.cast_sub (show n ≤ 67 from by omega)]
      push_cast
      ring
    have hcast2 : ((68 - n : ℕ) : ℚ) = 68 - (n : ℚ) := by
      push_cast [Nat.cast_sub (by omega : n ≤ 68)]
      ring
    have hq : (8 : ℚ) ≤ (n : ℚ) := by exact_mod_cast hn
    rw [revSamples, averageLoop]
    dsimp only
    rw [if_neg (show ¬ (((n + 1 : ℕ) : ℚ) - 69 < 0 - 60) by push_cast; linarith)]
    rw [bucketBoundary_one]
    rw [if_neg (show ¬ ((0 : ℚ) - ((68 - (n + 1) : ℕ) : ℚ) < ((n + 1 : ℕ) : ℚ) - 69) by
      rw [hcast]; push_cast; linarith)]
    have hAdv : advanceBuckets 0 1 (((n + 1 : ℕ) : ℚ) - 69) 62 (68 - (n + 1))
        { count := 0, memsum := 0, cpusum := 0 } cpuav memav
        = (68 - n, { count := 0, memsum := 0, cpusum := 0 }, cpuav, memav) := by
      rw [show (62 : ℕ) = 61 + 1 from rfl]
      rw [advanceBuckets_go 0 1 _ _ (show (((n + 1 : ℕ) : ℚ) - 69) < bucketBoundary 0 1 (68 - (n + 1)) by
        rw [bucketBoundary_one, hcast]; push_cast; linarith)]
      rw [appendAndReset_zero]
      dsimp only
      rw [show 68 - (n + 1) + 1 = 68 - n from by omega]
      exact advanceBuckets_stop 0 1 _ _ (show ¬ ((((n + 1 : ℕ) : ℚ) - 69) < bucketBoundary 0 1 (68 - n)) by
        rw [bucketBoundary_one, hcast2]; push_cast; linarith) 61 _ _ _
    rw [hAdv]
    dsimp only
    exact ih (by omega) cpuav memav

/-- Processing the newest sample (time zero): it is strictly after the first
bucket boundary and is accumulated. -/
lemma step69 : averageLoop 0 60 1 62 (revSamples 70) 1 ⟨0, 0, 0⟩ [] []
    = averageLoop 0 60 1 62 (revSamples 69) 1 ⟨1, 169, 70⟩ [] [] := by
  rw [revSamples, averageLoop]
  dsimp only
  rw [if_neg (show ¬ (((69 : ℕ) : ℚ) - 69 < 0 - 60) by norm_num)]
  rw [bucketBoundary_one]
  rw [if_pos (show (0 : ℚ) - ((1 : ℕ) : ℚ) < ((69 : ℕ) : ℚ) - 69 by norm_num)]
  norm_num

/-- Processing the sample one minute old: it sits exactly on the first bucket
boundary, so it is neither accumulated nor does it advance the bucket; it is
simply dropped. -/
lemma step68 : averageLoop 0 60 1 62 (revSamples 69) 1 ⟨1, 169, 70⟩ [] []
    = averageLoop 0 60 1 62 (revSamples 68) 1 ⟨1, 169, 70⟩ [] [] := by
  rw [revSamples, averageLoop]
  dsimp only
  rw [if_neg (show ¬ (((68 : ℕ) : ℚ) - 69 < 0 - 60) by norm_num)]
  rw [bucketBoundary_one]
  rw [if_neg (show ¬ ((0 : ℚ) - ((1 : ℕ) : ℚ) < ((68 : ℕ) : ℚ) - 69) by norm_num)]
  rw [advanceBuckets_stop 0 1 _ _ (show ¬ ((((68 : ℕ) : ℚ) - 69) < bucketBoundary 0 1 1) by
        rw [bucketBoundary_one]; norm_num) 62 _ _ _]

/-- Processing the sample two minutes old: it is before the first boundary,
so the inner loop flushes the accumulated first bucket and advances; the
sample itself is dropped without being accumulated. -/
lemma step67 : averageLoop 0 60 1 62 (revSamples 68) 1 ⟨1, 169, 70⟩ [] []
    = averageLoop 0 60 1 62 (revSamples 67) 2 ⟨0, 0, 0⟩ [70] [169] := by
  rw [revSamples, averageLoop]
  dsimp only
  rw [if_neg (show ¬ (((67 : ℕ) : ℚ) - 69 < 0 - 60) by norm_num)]
  rw [bucketBoundary_one]
  rw [if_neg (show ¬ ((0 : ℚ) - ((1 : ℕ) : ℚ) < ((67 : ℕ) : ℚ) - 69) by norm_num)]
  have hAdv : advanceBuckets 0 1 (((67 : ℕ) : ℚ) - 69) 62 1 ⟨1, 169, 70⟩ [] []
      = (2, ⟨0, 0, 0⟩, [70], [169]) := by
    rw [show (62 : ℕ) = 61 + 1 from rfl]
    rw [advanceBuckets_go 0 1 _ _ (show (((67 : ℕ) : ℚ) - 69) < bucketBoundary 0 1 1 by
          rw [bucketBoundary_one]; norm_num) 61 _ _ _]
    rw [show appendAndReset [] [] (⟨1, 169, 70⟩ : averageAcc) = ([70], [169], ⟨0, 0, 0⟩) from by
          norm_num [appendAndReset]]
    dsimp only
    exact advanceBuckets_stop 0 1 _ _ (show ¬ ((((67 : ℕ) : ℚ) - 69) < bucketBoundary 0 1 2) by
          rw [bucketBoundary_one]; norm_num) 61 _ _ _
  rw [hAdv]

/-- Full evaluation of the seventy-minute scenario: only the newest sample
survives; every other sample is dropped at a bucket crossing, so a single
bucket is produced. -/
lemma seventyEval : average 0 60 1 (mkSamples 70) = ([169], [70]) := by
  unfold average
  rw [mkSamples_reverse]
  rw [show averageFuel 60 1 = 62 from by norm_num [averageFuel]]
  rw [step69, step68, step67]
  have h := dropWalk 66 (by norm_num) (by norm_num) [70] [169]
  norm_num at h
  exact h

/-- C1: the claim states a bucket appears in the output if and only if at
least one stored sample falls in its interval. The code violates the if
direction: with one sample in each of the two buckets of a two-minute
one-minute-wide window, the older sample (ninety seconds old, bucket two) is
dropped at the bucket crossing without ever being accumulated, so its bucket
never appears; the output is the single bucket of the newer sample. This
theorem evaluates the source at that failing input. -/
theorem C1_bucket_presence_eval :
    average 0 2 1 [⟨"web-01", 5, 7, -(3 : ℚ)/2⟩, ⟨"web-01", 4, 6, -(1 : ℚ)/6⟩]
      = ([6], [4]) := by
  norm_num [average, averageLoop, advanceBuckets, appendAndReset, bucketBoundary,
    truncQ, averageFuel]

/-- C2: samples (cpu ten, mem fifty) at time T and (cpu twenty, mem sixty)
thirty seconds later, both in the newest one-minute bucket of a sixty-minute
window queried shortly after the second sample (after it but within one
minute of T), yield exactly one bucket with cpu average fifteen and mem
average fifty-five. Time is measured in minutes, so thirty seconds is one
half. -/
theorem C2_same_bucket_average (T start : ℚ)
    (h1 : T + 1/2 < start) (h2 : start < T + 1) :
    average start 60 1 [⟨"web-01", 10, 50, T⟩, ⟨"web-01", 20, 60, T + 1/2⟩]
      = ([55], [15]) := by
  unfold average
  rw [show averageFuel 60 1 = 62 from by norm_num [averageFuel]]
  rw [show ([⟨"web-01", 10, 50, T⟩, ⟨"web-01", 20, 60, T + 1/2⟩] : List pulse).reverse
        = [⟨"web-01", 20, 60, T + 1/2⟩, ⟨"web-01", 10, 50, T⟩] from by simp]
  rw [averageLoop]
  dsimp only
  rw [if_neg (show ¬ (T + 1/2 < start - 60) by linarith)]
  rw [bucketBoundary_one]
  rw [if_pos (show start - ((1 : ℕ) : ℚ) < T + 1/2 by push_cast; linarith)]
  rw [averageLoop]
  dsimp only
  rw [if_neg (show ¬ (T < start - 60) by linarith)]
  rw [bucketBoundary_one]
  rw [if_pos (show start - ((1 : ℕ) : ℚ) < T by push_cast; linarith)]
  rw [averageLoop]
  norm_num

/-- C2 witness: the concrete instance with T zero and the query two thirds of
a minute later. -/
theorem C2_witness :
    (0 : ℚ) + 1/2 < 2/3 ∧ (2/3 : ℚ) < 0 + 1 ∧
    average (2/3) 60 1 [⟨"web-01", 10, 50, 0⟩, ⟨"web-01", 20, 60, 0 + 1/2⟩]
      = ([55], [15]) :=
  ⟨by norm_num, by norm_num, C2_same_bucket_average 0 (2/3) (by norm_num) (by norm_num)⟩

/-- C3: the claim asserts sixty buckets, each equal to the one sample of its
minute, for a seventy-minute one-sample-per-minute history under the
sixty-minute one-minute-bucket window. The code instead returns a single
bucket holding only the newest sample (cpu seventy, mem one hundred
sixty-nine): every older sample is dropped at its bucket crossing. -/
theorem C3_seventy_minute_eval :
    (mkSamples 70).length = 70 ∧ average 0 60 1 (mkSamples 70) = ([169], [70]) :=
  ⟨by rfl, seventyEval⟩

/-- C4: a sample twenty-five hours (1500 minutes) old contributes to no
bucket of a twenty-four-hour window with one-hour buckets: aggregating any
history that contains it gives exactly the aggregation of the samples
appended after it, so it joins no emitted average and creates no bucket. -/
theorem C4_window_exclusion (start cpu mem : ℚ) (nm : String) (pre suf : List pulse) :
    average start 1440 60 (pre ++ ⟨nm, cpu, mem, start - 1500⟩ :: suf)
      = average start 1440 60 suf :=
  average_cut start 1440 60 _ pre suf (show start - 1500 < start - 1440 by linarith)

/-- C5 counterexample: the claim says an unknown entity yields a NotFound
signal; the surrounding Handler renders status 404 as NotFound, but get
answers an unknown server with status 500 and an error, which is not 404. -/
theorem C5_counterexample :
    get (fun _ => none) "web-01" 0 = GetOutcome.err 500
      ∧ GetOutcome.err 500 ≠ GetOutcome.err 404 :=
  ⟨rfl, by decide⟩

/-- C5 amended: querying an unknown name yields status 500 with an error (a
generic InternalServerError, not the NotFound the Handler reserves for
status 404), while a known entity with an empty history yields success with
a plain message; the two outcomes are distinct, so the distinction between
absence and emptiness is still exposed. -/
theorem C5_unknown_vs_empty (c : Context) (name1 name2 : String) (start : ℚ)
    (sv : server) (h1 : c name1 = none) (h2 : c name2 = some sv)
    (h3 : sv.Statistics = []) :
    get c name1 start = GetOutcome.err 500
      ∧ get c name2 start = GetOutcome.okEmptyMsg
      ∧ get c name1 start ≠ get c name2 start := by
  refine ⟨?_, ?_, ?_⟩
  · simp [get, h1]
  · simp [get, h2, h3]
  · simp [get, h1, h2, h3]

/-- C5 witness: a store with one known, empty server and an unknown name. -/
theorem C5_witness :
    knownOnlyStore "web-01" = none
      ∧ knownOnlyStore "known" = some { Name := "known", Statistics := [] }
      ∧ (server.Statistics { Name := "known", Statistics := [] }) = ([] : List pulse)
      ∧ (get knownOnlyStore "web-01" 0 = GetOutcome.err 500
          ∧ get knownOnlyStore "known" 0 = GetOutcome.okEmptyMsg
          ∧ get knownOnlyStore "web-01" 0 ≠ get knownOnlyStore "known" 0) :=
  ⟨rfl, rfl, rfl,
    C5_unknown_vs_empty knownOnlyStore "web-01" "known" 0
      { Name := "known", Statistics := [] } rfl rfl rfl⟩

/-- C6 counterexample: the claim says an empty-name sample is rejected with
the store unchanged; upsert instead returns status 200 and stores the sample
under the empty-string key, where the store previously had no entry. -/
theorem C6_counterexample :
    (upsert (fun _ => none) ⟨"", 1, 2, 0⟩).2 = 200
      ∧ (upsert (fun _ => none) ⟨"", 1, 2, 0⟩).1 ""
          = some { Name := "", Statistics := [⟨"", 1, 2, 0⟩] }
      ∧ ((fun _ => none : Context) "") = none :=
  ⟨rfl, rfl, rfl⟩

/-- C6 amended: upsert performs no name validation: a sample whose entity
name is the empty string is accepted with status 200 and appended to the
history stored under the empty-string key. -/
theorem C6_empty_name_stored (c : Context) (s : pulse) (h : s.Name = "") :
    (upsert c s).1 ""
        = some { Name := ""
                 Statistics := ((c "").elim ([] : List pulse) server.Statistics) ++ [s] }
      ∧ (upsert c s).2 = 200 := by
  constructor
  · simp [upsert, h]
  · rfl

/-- C6 witness: the empty-name sample upserted into the empty store. -/
theorem C6_witness :
    ((⟨"", 1, 2, 0⟩ : pulse).Name = "")
      ∧ ((upsert (fun _ => none) ⟨"", 1, 2, 0⟩).1 ""
            = some { Name := ""
                     Statistics := (((fun _ => none : Context) "").elim ([] : List pulse)
                       server.Statistics) ++ [⟨"", 1, 2, 0⟩] }
          ∧ (upsert (fun _ => none) ⟨"", 1, 2, 0⟩).2 = 200) :=
  ⟨rfl, C6_empty_name_stored (fun _ => none) ⟨"", 1, 2, 0⟩ rfl⟩

/-- C7 counterexample: three minutes is not an integer multiple of two
minutes, yet the aggregator does not reject the request: average has no
error outlet at all and produces a bucketed result for this non-divisible
window. -/
theorem C7_counterexample :
    ¬ ((2 : ℤ) ∣ 3)
      ∧ average 0 3 2 [⟨"web-01", 10, 50, -(1 : ℚ)/6⟩] = ([50], [10]) := by
  constructor
  · decide
  · norm_num [average, averageLoop, advanceBuckets, appendAndReset, bucketBoundary,
      truncQ, averageFuel]

/-- C7 amended: average validates nothing: for every window, including any
whose length is not an integer multiple of the bucket width, it produces the
bucketed per-group averages; no invalid-argument condition exists in its
signature. -/
theorem C7_no_divisibility_guard (start length rate : ℚ) (st : List pulse)
    (_h : ¬ ∃ k : ℕ, length = (k : ℚ) * rate) :
    average start length rate st
      = ((bucketGroups start length rate st).map memAvgOf,
         (bucketGroups start length rate st).map cpuAvgOf) :=
  average_eq_bucketGroups start length rate st

/-- C7 witness: the non-divisible three-by-two-minute window. -/
theorem C7_witness :
    (¬ ∃ k : ℕ, (3 : ℚ) = (k : ℚ) * 2)
      ∧ average 0 3 2 [⟨"web-01", 10, 50, -(1 : ℚ)/6⟩]
          = ((bucketGroups 0 3 2 [⟨"web-01", 10, 50, -(1 : ℚ)/6⟩]).map memAvgOf,
             (bucketGroups 0 3 2 [⟨"web-01", 10, 50, -(1 : ℚ)/6⟩]).map cpuAvgOf) := by
  have hnd : ¬ ∃ k : ℕ, (3 : ℚ) = (k : ℚ) * 2 := by
    rintro ⟨k, hk⟩
    have h2 : ((2 * k : ℕ) : ℚ) = ((3 : ℕ) : ℚ) := by push_cast; linarith
    have h3 := Nat.cast_injective h2
    omega
  exact ⟨hnd, C7_no_divisibility_guard 0 3 2 _ hnd⟩

/-- C8: one aggregation produces a mem sequence and a cpu sequence that are
the two per-metric projections of one and the same list of flushed sample
groups; hence the sequences have equal length and position n of each is the
average, for its metric, over the same accumulated group of samples. -/
theorem C8_two_metric_alignment (start length rate : ℚ) (st : List pulse) :
    average start length rate st
      = ((bucketGroups start length rate st).map memAvgOf,
         (bucketGroups start length rate st).map cpuAvgOf)
      ∧ (average start length rate st).1.length
          = (average start length rate st).2.length := by
  refine ⟨average_eq_bucketGroups start length rate st, ?_⟩
  rw [average_eq_bucketGroups start length rate st]
  simp

/-- C10: every division the aggregation performs is a flush dividing a group
sum by the group size, and a flush fires only when the accumulated cpu sum is
positive, which requires at least one accumulated sample; so every divisor is
strictly positive and no division by zero occurs. -/
theorem C10_no_division_by_zero (start length rate : ℚ) (st : List pulse)
    (_h : 0 < rate) :
    average start length rate st
      = ((bucketGroups start length rate st).map memAvgOf,
         (bucketGroups start length rate st).map cpuAvgOf)
      ∧ ∀ g ∈ bucketGroups start length rate st, 0 < (g.length : ℚ) := by
  refine ⟨average_eq_bucketGroups start length rate st, ?_⟩
  intro g hg
  have hne := bucketGroups_ne_nil start length rate st g hg
  have hlen : 0 < g.length := List.length_pos.mpr hne
  exact_mod_cast hlen

/-- C10 witness: a single-sample history under the sixty-minute window. -/
theorem C10_witness :
    (0 : ℚ) < 1
      ∧ (average 0 60 1 [⟨"web-01", 10, 50, 0⟩]
            = ((bucketGroups 0 60 1 [⟨"web-01", 10, 50, 0⟩]).map memAvgOf,
               (bucketGroups 0 60 1 [⟨"web-01", 10, 50, 0⟩]).map cpuAvgOf)
          ∧ ∀ g ∈ bucketGroups 0 60 1 [⟨"web-01", 10, 50, 0⟩], 0 < (g.length : ℚ)) :=
  ⟨by norm_num, C10_no_division_by_zero 0 60 1 _ (by norm_num)⟩

end CLC
